import Mathlib

/-!
Verification of the libdns-autodns provider (SaveEnergy/libdns-autodns).

This file is a shallow embedding of the provider's record codec (models.go),
its zone reconciliation operations (addRecords / setRecords / deleteRecords
and the zone cache in the zone-operations file), and the four public libdns
operations (provider.go).  Go strings are Lean `String`s; the Go standard
library and external libdns helpers the code calls are modelled as explicit
Lean functions next to their uses.  Network I/O is modelled by a transport
oracle (`World`) plus a ghost trace of transport calls, so that statements
such as "no write is attempted" are expressible.
-/

namespace Autodns

/-- Decidable equality on `Except`, so that concrete runs of the fallible
operations can be checked by evaluation. -/
instance exceptDecEq {ε α : Type} [DecidableEq ε] [DecidableEq α] :
    DecidableEq (Except ε α) := fun x y =>
  match x, y with
  | .error a, .error b =>
    if h : a = b then .isTrue (by rw [h]) else .isFalse (by intro hc; cases hc; exact h rfl)
  | .ok a, .ok b =>
    if h : a = b then .isTrue (by rw [h]) else .isFalse (by intro hc; cases hc; exact h rfl)
  | .error _, .ok _ => .isFalse (by intro hc; cases hc)
  | .ok _, .error _ => .isFalse (by intro hc; cases hc)

/-! ### Models of Go standard-library string helpers -/

/-- Models Go `strings.TrimSuffix`: drops `sfx` from the end of `s` when it is
a suffix, otherwise returns `s` unchanged. -/
def trimSuffix (s sfx : String) : String :=
  if sfx.data.isSuffixOf s.data then ⟨s.data.take (s.data.length - sfx.data.length)⟩ else s

/-- Models Go `strings.TrimPrefix`: drops `pfx` from the start of `s` when it
is a leading segment, otherwise returns `s` unchanged. -/
def trimPre (pfx s : String) : String :=
  if pfx.data.isPrefixOf s.data then ⟨s.data.drop pfx.data.length⟩ else s

/-- Models Go `strings.Trim` with a one-character cutset: removes all leading
and trailing occurrences of `c`. -/
def trimChar (c : Char) (s : String) : String :=
  ⟨((s.data.dropWhile (fun x => x = c)).reverse.dropWhile (fun x => x = c)).reverse⟩

/-- Models Go `strings.HasSuffix`. -/
def hasSuffix (s sfx : String) : Bool :=
  sfx.data.isSuffixOf s.data

def fieldsAux : List Char → List Char → List String
  | [], acc => if acc.isEmpty then [] else [⟨acc.reverse⟩]
  | ch :: rest, acc =>
    if ch.isWhitespace then
      if acc.isEmpty then fieldsAux rest [] else ⟨acc.reverse⟩ :: fieldsAux rest []
    else fieldsAux rest (ch :: acc)

/-- Models Go `strings.Fields`: splits around runs of whitespace. -/
def fields (s : String) : List String := fieldsAux s.data []

def splitOnCharAux (c : Char) : List Char → List Char → List String
  | [], acc => [⟨acc.reverse⟩]
  | ch :: rest, acc =>
    if ch = c then ⟨acc.reverse⟩ :: splitOnCharAux c rest []
    else splitOnCharAux c rest (ch :: acc)

/-- Splits `s` at every occurrence of `c` (Go `strings.Split` with a
one-character separator). -/
def splitOnChar (c : Char) (s : String) : List String := splitOnCharAux c s.data []

def joinChar (c : Char) : List String → String
  | [] => ""
  | [s] => s
  | s :: rest => s ++ String.singleton c ++ joinChar c rest

/-- Models Go `strings.SplitN(s, sep, 3)` for a one-character separator: at
most three parts, the unsplit remainder staying in the last part. -/
def splitN3 (c : Char) (s : String) : List String :=
  let parts := splitOnChar c s
  if parts.length ≤ 3 then parts else parts.take 2 ++ [joinChar c (parts.drop 2)]

def digitsToNat (l : List Char) : Nat :=
  l.foldl (fun acc c => acc * 10 + (c.toNat - '0'.toNat)) 0

/-- Models Go `strconv.ParseUint(s, 10, bitSize)`: a non-empty all-digit
string whose value fits in `bitSize` bits; no signs, no radix markers. -/
def parseUint (s : String) (bitSize : Nat) : Except String Nat :=
  if s.data.isEmpty then .error "invalid syntax"
  else if s.data.all Char.isDigit then
    let v := digitsToNat s.data
    if v < 2 ^ bitSize then .ok v else .error "value out of range"
  else .error "invalid syntax"

/-! ### Models of external collaborators (net/netip and libdns helpers) -/

/-- Model of `netip.Addr` as the code uses it: the address family plus the
textual form returned by `String()` (canonicalisation is not modelled; the
parsed text is kept verbatim). -/
structure IPAddr where
  is4 : Bool
  text : String
deriving DecidableEq, Repr

def validOctet (s : String) : Bool :=
  !s.data.isEmpty && s.data.all Char.isDigit && s.data.length ≤ 3 &&
    (s.data.length == 1 || s.data.head? != some '0') && digitsToNat s.data ≤ 255

/-- Simplified executable model of the external `netip.ParseAddr`: a string
with a colon parses as an IPv6 address when made of hex digits, colons and
dots; otherwise it must be four valid dotted-decimal octets (IPv4).  Only the
success/failure split and the address family matter to the claims. -/
def parseAddr (s : String) : Except String IPAddr :=
  if s.data.contains ':' then
    if !s.data.isEmpty &&
        s.data.all (fun c => c.isDigit || ('a' ≤ c && c ≤ 'f') || ('A' ≤ c && c ≤ 'F')
          || c == ':' || c == '.') then
      .ok { is4 := false, text := s }
    else .error "ParseAddr: unable to parse IP"
  else
    if (splitOnChar '.' s).length == 4 && (splitOnChar '.' s).all validOctet then
      .ok { is4 := true, text := s }
    else .error "ParseAddr: unable to parse IP"

/-- Models the external `libdns.AbsoluteName(name, zone)`: qualifies a
relative name with the zone (apex spellings map to the zone itself; names
already ending in `.zone` are kept). -/
def absoluteName (name zone : String) : String :=
  if zone = "" then trimChar '.' name
  else if name = "" || name = "@" then zone
  else if hasSuffix name ("." ++ zone) then name
  else name ++ "." ++ zone

/-- Models the external `libdns.RelativeName(fqdn, zone)`: strips a trailing
dot, then the zone suffix, then the joining dot; an empty remainder is the
zone apex `@`. -/
def relativeName (fqdn zone : String) : String :=
  let rel := trimSuffix (trimSuffix (trimSuffix fqdn ".") (trimSuffix zone ".")) "."
  if rel = "" then "@" else rel

/-! ### Data model (models.go) -/

/-- models.go `ResourceRecord`: the provider's flat resource-record row.
Field defaults mirror Go zero values for fields a literal leaves unset. -/
structure ResourceRecord where
  name : String := ""
  ttl : Int := 0
  type : String := ""
  value : String := ""
  pref : Int := 0
  raw : String := ""
deriving DecidableEq, Repr

/-- models.go `SOA`. -/
structure SOA where
  refresh : Int := 0
  retry : Int := 0
  expire : Int := 0
  ttl : Int := 0
  email : String := ""
deriving DecidableEq, Repr

/-- models.go `NameServer`. -/
structure NameServer where
  name : String := ""
  ttl : Int := 0
  ipAddresses : List String := []
deriving DecidableEq, Repr

/-- models.go `Zone`: the AutoDNS zone document.  The `AutoDNSTime`
timestamps are opaque payloads here (only their presence matters: `setZone`
omits them from the outbound document). -/
structure Zone where
  created : Option String := none
  updated : Option String := none
  origin : String := ""
  soa : Option SOA := none
  nameServers : List NameServer := []
  wwwInclude : Bool := false
  virtualNameServer : String := ""
  action : String := ""
  resourceRecords : List ResourceRecord := []
  roid : Int := 0
deriving DecidableEq, Repr

/-- The external libdns generic record model (the spec treats it as a given
closed set of variants).  TTLs are in nanoseconds like Go `time.Duration`;
the 16-bit and 8-bit numeric fields are `Nat`s kept in range by the parsers
that produce them. -/
inductive LibdnsRecord where
  | address (name : String) (ttl : Int) (ip : IPAddr)
  | caa (name : String) (ttl : Int) (flags : Nat) (tag : String) (value : String)
  | cname (name : String) (ttl : Int) (target : String)
  | mx (name : String) (ttl : Int) (preference : Nat) (target : String)
  | ns (name : String) (ttl : Int) (target : String)
  | srv (service : String) (transport : String) (name : String) (ttl : Int)
      (priority : Nat) (weight : Nat) (port : Nat) (target : String)
  | txt (name : String) (ttl : Int) (text : String)
  | serviceBinding (name : String) (ttl : Int) (scheme : String) (priority : Nat)
      (target : String) (params : List (String × List String))
  | rr (name : String) (ttl : Int) (type : String) (data : String)
deriving DecidableEq, Repr

/-- The name carried by a generic libdns record (the `Name` field of each
variant). -/
def LibdnsRecord.recName : LibdnsRecord → String
  | .address n _ _ => n
  | .caa n _ _ _ _ => n
  | .cname n _ _ => n
  | .mx n _ _ _ => n
  | .ns n _ _ => n
  | .srv _ _ n _ _ _ _ _ => n
  | .txt n _ _ => n
  | .serviceBinding n _ _ _ _ _ => n
  | .rr n _ _ _ => n

/-- Nanoseconds per second: Go `time.Second` as an integer duration. -/
def nsPerSecond : Int := 1000000000

/-- Go `uint16(x)` applied to an `int32` value: reduction mod 2^16. -/
def toUint16 (i : Int) : Nat := (i % 65536).toNat

/-! ### Record codec (models.go) -/

/-- Models the external `libdns.RR.Parse` reached by the decode fallback for
row types outside the switch (per spec §4.1 these "fall through to a
generic-record decode that preserves type and raw value"); the richer
well-known upgrades libdns attempts for SVCB/HTTPS values are not modelled. -/
def rrParse (name : String) (ttl : Int) (typ : String) (data : String) :
    Except String LibdnsRecord :=
  .ok (.rr name ttl typ data)

/-- models.go `ResourceRecord.libdnsRecord`: convert a provider row to a
generic libdns record, given the zone for relative-name computation. -/
def ResourceRecord.libdnsRecord (r : ResourceRecord) (zone : String) :
    Except String LibdnsRecord :=
  let name := relativeName r.name zone
  let ttl := r.ttl * nsPerSecond
  match r.type with
  | "A" | "AAAA" =>
    match parseAddr r.value with
    | .error e => .error ("invalid IP address " ++ r.value ++ ": " ++ e)
    | .ok addr => .ok (.address name ttl addr)
  | "CAA" =>
    match fields r.value with
    | [f0, f1, f2] =>
      match parseUint f0 8 with
      | .error e => .error ("invalid flags " ++ f0 ++ ": " ++ e)
      | .ok flags => .ok (.caa name ttl flags f1 (trimChar '"' f2))
    | _ => .error "malformed CAA value; expected 3 fields in the form flags tag value"
  | "CNAME" => .ok (.cname name ttl r.value)
  | "MX" => .ok (.mx name ttl (toUint16 r.pref) r.value)
  | "NS" => .ok (.ns name ttl r.value)
  | "SRV" =>
    match fields r.value with
    | [f0, f1, f2] =>
      match parseUint f0 16 with
      | .error e => .error ("invalid weight " ++ f0 ++ ": " ++ e)
      | .ok weight =>
        match parseUint f1 16 with
        | .error e => .error ("invalid port " ++ f1 ++ ": " ++ e)
        | .ok port =>
          let parts := splitN3 '.' r.name
          if parts.length < 2 then
            .error ("name " ++ r.name ++ " does not contain enough fields")
          else
            let nm := if parts.length = 3 then parts.getD 2 "" else "@"
            .ok (.srv (trimPre "_" (parts.getD 0 "")) (trimPre "_" (parts.getD 1 ""))
              nm (r.ttl * nsPerSecond) (toUint16 r.pref) weight port f2)
    | _ => .error "malformed SRV value; expected 3 fields in the form weight port target"
  | "TXT" => .ok (.txt name ttl r.value)
  | _ => rrParse name ttl r.type r.value

/-- models.go `libdnsRecordToResourceRecord`: convert a generic libdns record
to a provider row.  The final catch-all is the source's `default:` branch,
which silently produces the fixed placeholder row. -/
def libdnsRecordToResourceRecord (record : LibdnsRecord) (zone : String) : ResourceRecord :=
  match record with
  | .address name ttl ip =>
    { name := absoluteName name zone, ttl := ttl / nsPerSecond, type := "A", value := ip.text }
  | .caa name ttl flags tag value =>
    { name := absoluteName name zone, ttl := ttl / nsPerSecond, type := "CAA",
      value := Nat.repr flags ++ " " ++ tag ++ " \"" ++ value ++ "\"" }
  | .cname name ttl target =>
    { name := absoluteName name zone, ttl := ttl / nsPerSecond, type := "CNAME", value := target }
  | .mx name ttl preference target =>
    { name := absoluteName name zone, ttl := ttl / nsPerSecond, type := "MX", value := target,
      pref := (preference : Int) }
  | .ns name ttl target =>
    { name := absoluteName name zone, ttl := ttl / nsPerSecond, type := "NS", value := target }
  | .srv service transport name ttl priority weight port target =>
    { name := "_" ++ service ++ "._" ++ transport ++ "." ++ absoluteName name zone,
      ttl := ttl / nsPerSecond, type := "SRV",
      value := Nat.repr weight ++ " " ++ Nat.repr port ++ " " ++ target,
      pref := (priority : Int) }
  | .txt name ttl text =>
    { name := absoluteName name zone, ttl := ttl / nsPerSecond, type := "TXT", value := text }
  | _ =>
    { name := "unknown", ttl := 0, type := "UNKNOWN", value := "unknown" }

/-! ### Transport oracle, ghost trace, and provider state -/

/-- Transport oracle: the responses the AutoDNS API would give.  `fetchResp`
is the GET of a zone decoded into a list of zones (the API may answer with an
array); `writeResp` is the PUT of a cleaned zone document. -/
structure World where
  fetchResp : String → Except String (List Zone)
  writeResp : String → Zone → Except String Unit

/-- Ghost trace entry for one transport call, letting statements such as "no
write is attempted" be expressed about a run. -/
inductive Event where
  | fetchEv (zone : String)
  | writeEv (zone : String) (doc : Zone)
deriving DecidableEq, Repr

/-- provider.go `Provider` together with the mutable fields the operations
touch: configuration, the `initialized` flag, the zone cache map (as an
association list), and the ghost trace of transport calls. -/
structure PState where
  username : String := ""
  password : String := ""
  context : String := ""
  endpoint : String := ""
  inited : Bool := false
  zones : List (String × Zone) := []
  events : List Event := []
deriving DecidableEq, Repr

def lookupZone : List (String × Zone) → String → Option Zone
  | [], _ => none
  | (k, v) :: rest, z => if k = z then some v else lookupZone rest z

def insertZone : List (String × Zone) → String → Zone → List (String × Zone)
  | [], k, v => [(k, v)]
  | (k0, v0) :: rest, k, v =>
    if k0 = k then (k, v) :: rest else (k0, v0) :: insertZone rest k v

def eraseZone : List (String × Zone) → String → List (String × Zone)
  | [], _ => []
  | (k0, v0) :: rest, k =>
    if k0 = k then eraseZone rest k else (k0, v0) :: eraseZone rest k

def defaultEndpoint : String := "https://api.autodns.com/v1"

def defaultContext : String := "4"

/-- provider.go `ensureInitialized`: populate defaults, then validate the
credentials; mutations to the provider fields persist even when validation
fails, exactly as in the source. -/
def ensureInit (st : PState) : Except String Unit × PState :=
  if st.inited then (.ok (), st)
  else
    let st := { st with
      endpoint := if st.endpoint = "" then defaultEndpoint else st.endpoint,
      context := if st.context = "" then defaultContext else st.context }
    if st.username = "" then (.error "username is required", st)
    else if st.password = "" then (.error "password is required", st)
    else (.ok (), { st with inited := true })

/-! ### Zone operations (the zone-operations file) -/

/-- `getZone`: return the cached document when present, otherwise ask the
transport for the zone (recorded as a fetch event), take the first zone of
the array response, and cache it. -/
def getZone (w : World) (st : PState) (zoneName : String) : Except String Zone × PState :=
  match lookupZone st.zones zoneName with
  | some z => (.ok z, st)
  | none =>
    let st := { st with events := st.events ++ [Event.fetchEv zoneName] }
    match w.fetchResp zoneName with
    | .error e => (.error ("failed to get zone " ++ zoneName ++ ": " ++ e), st)
    | .ok zs =>
      match zs with
      | [] => (.error ("no zones found for " ++ zoneName), st)
      | z :: _ => (.ok z, { st with zones := insertZone st.zones zoneName z })

/-- `setZone`: strip the read-only timestamp fields, PUT the cleaned document
(recorded as a write event), and delete the cache entry only after a
successful write. -/
def cleanZone (zoneData : Zone) : Zone :=
  { origin := zoneData.origin
    soa := zoneData.soa
    nameServers := zoneData.nameServers
    resourceRecords := zoneData.resourceRecords
    wwwInclude := zoneData.wwwInclude
    virtualNameServer := zoneData.virtualNameServer
    action := zoneData.action
    roid := zoneData.roid
    created := none
    updated := none }

def setZone (w : World) (st : PState) (zoneName : String) (zoneData : Zone) :
    Except String Unit × PState :=
  let clean := cleanZone zoneData
  let st := { st with events := st.events ++ [Event.writeEv zoneName clean] }
  match w.writeResp zoneName clean with
  | .error e => (.error ("failed to update zone " ++ zoneName ++ ": " ++ e), st)
  | .ok _ => (.ok (), { st with zones := eraseZone st.zones zoneName })

/-- `addRecords`: fetch the current zone, convert the caller records, append
them after the existing rows, and write the document back. -/
def addRecords (w : World) (st : PState) (zoneName : String)
    (records : List LibdnsRecord) : Except String Unit × PState :=
  match getZone w st zoneName with
  | (.error e, st) => (.error ("failed to get zone " ++ zoneName ++ ": " ++ e), st)
  | (.ok zoneData, st) =>
    let newRecords := records.map (fun r => libdnsRecordToResourceRecord r zoneName)
    setZone w st zoneName { zoneData with resourceRecords := zoneData.resourceRecords ++ newRecords }

/-- The `Type:Name` match key `setRecords` computes (`fmt.Sprintf("%s:%s", ...)`). -/
def key2 (t n : String) : String := t ++ ":" ++ n

/-- The `Type:Name:Value` match key `deleteRecords` computes. -/
def key3 (t n v : String) : String := t ++ ":" ++ n ++ ":" ++ v

/-- The zone-relative spelling `setRecords`/`deleteRecords` derive from an
encoded row name: `strings.TrimSuffix(rr.Name, "."+zoneName)`. -/
def shortName (zoneName n : String) : String := trimSuffix n ("." ++ zoneName)

/-- The key set `recordsToReplace` built by `setRecords`: for every new row,
both the full-name key and the short-name key.  The Go `map[string]bool` with
only `true` insertions is modelled by key membership in this list. -/
def replaceKeys (zoneName : String) (newRecords : List ResourceRecord) : List String :=
  newRecords.flatMap (fun rr =>
    [key2 rr.type rr.name, key2 rr.type (shortName zoneName rr.name)])

/-- `setRecords`: fetch the current zone, convert the caller records, drop
every existing row whose `Type:Name` key is registered, append the new rows
after the preserved ones, and write the document back. -/
def setRecords (w : World) (st : PState) (zoneName : String)
    (records : List LibdnsRecord) : Except String Unit × PState :=
  match getZone w st zoneName with
  | (.error e, st) => (.error ("failed to get zone " ++ zoneName ++ ": " ++ e), st)
  | (.ok zoneData, st) =>
    let newRecords := records.map (fun r => libdnsRecordToResourceRecord r zoneName)
    let recordsToReplace := replaceKeys zoneName newRecords
    let preservedRecords := zoneData.resourceRecords.filter
      (fun rr => !recordsToReplace.contains (key2 rr.type rr.name))
    setZone w st zoneName { zoneData with resourceRecords := preservedRecords ++ newRecords }

/-- The key set `recordsToDelete` built by `deleteRecords`: the two loops of
the source register the full-name triple and the short-name triple of every
converted record. -/
def deleteKeys (zoneName : String) (records : List LibdnsRecord) : List String :=
  (records.map (fun record =>
    let rr := libdnsRecordToResourceRecord record zoneName
    key3 rr.type rr.name rr.value)) ++
  (records.map (fun record =>
    let rr := libdnsRecordToResourceRecord record zoneName
    key3 rr.type (shortName zoneName rr.name) rr.value))

/-- `deleteRecords`: fetch the current zone, drop every existing row whose
`Type:Name:Value` key is registered, and write the document back. -/
def deleteRecords (w : World) (st : PState) (zoneName : String)
    (records : List LibdnsRecord) : Except String Unit × PState :=
  match getZone w st zoneName with
  | (.error e, st) => (.error ("failed to get zone " ++ zoneName ++ ": " ++ e), st)
  | (.ok zoneData, st) =>
    let recordsToDelete := deleteKeys zoneName records
    let remainingRecords := zoneData.resourceRecords.filter
      (fun rr => !recordsToDelete.contains (key3 rr.type rr.name rr.value))
    setZone w st zoneName { zoneData with resourceRecords := remainingRecords }

/-! ### Public operations (provider.go) -/

/-- The record-conversion loop in `GetRecords`: decode every row, aborting
the whole traversal at the first row that fails to decode. -/
def decodeRows (zone : String) : List ResourceRecord → Except String (List LibdnsRecord)
  | [] => .ok []
  | rr :: rest =>
    match rr.libdnsRecord zone with
    | .error e => .error ("failed to convert resource record " ++ rr.name ++ ": " ++ e)
    | .ok record =>
      match decodeRows zone rest with
      | .error e => .error e
      | .ok records => .ok (record :: records)

/-- provider.go `GetRecords`. -/
def GetRecords (w : World) (st : PState) (zone : String) :
    Except String (List LibdnsRecord) × PState :=
  match ensureInit st with
  | (.error e, st) => (.error e, st)
  | (.ok _, st) =>
    if zone = "" then (.error "zone name is required", st)
    else
      match getZone w st zone with
      | (.error e, st) => (.error ("failed to get zone " ++ zone ++ ": " ++ e), st)
      | (.ok zoneData, st) =>
        match decodeRows zone zoneData.resourceRecords with
        | .error e => (.error e, st)
        | .ok records => (.ok records, st)

/-- provider.go `AppendRecords`. -/
def AppendRecords (w : World) (st : PState) (zone : String)
    (records : List LibdnsRecord) : Except String (List LibdnsRecord) × PState :=
  match ensureInit st with
  | (.error e, st) => (.error e, st)
  | (.ok _, st) =>
    if zone = "" then (.error "zone name is required", st)
    else if records.length = 0 then (.error "at least one record is required", st)
    else
      match addRecords w st zone records with
      | (.error e, st) => (.error ("failed to add records to zone " ++ zone ++ ": " ++ e), st)
      | (.ok _, st) => (.ok records, st)

/-- provider.go `SetRecords`. -/
def SetRecords (w : World) (st : PState) (zone : String)
    (records : List LibdnsRecord) : Except String (List LibdnsRecord) × PState :=
  match ensureInit st with
  | (.error e, st) => (.error e, st)
  | (.ok _, st) =>
    if zone = "" then (.error "zone name is required", st)
    else if records.length = 0 then (.error "at least one record is required", st)
    else
      match setRecords w st zone records with
      | (.error e, st) => (.error ("failed to set records in zone " ++ zone ++ ": " ++ e), st)
      | (.ok _, st) => (.ok records, st)

/-- provider.go `DeleteRecords`. -/
def DeleteRecords (w : World) (st : PState) (zone : String)
    (records : List LibdnsRecord) : Except String (List LibdnsRecord) × PState :=
  match ensureInit st with
  | (.error e, st) => (.error e, st)
  | (.ok _, st) =>
    if zone = "" then (.error "zone name is required", st)
    else if records.length = 0 then (.error "at least one record is required", st)
    else
      match deleteRecords w st zone records with
      | (.error e, st) => (.error ("failed to delete records from zone " ++ zone ++ ": " ++ e), st)
      | (.ok _, st) => (.ok records, st)

/-! ### Helper notions and lemmas for the reconciliation theorems

The reconciliation code compares rows through string keys joined with a
colon.  On rows whose `Type` (and, for the value-level keys, `Name`) does not
itself contain a colon — true of every DNS record type and of every type the
encoder emits — key equality is exactly componentwise equality, which is what
the pair-level match statements below are about. -/

/-- The string contains no colon. -/
def noColon (s : String) : Prop := ':' ∉ s.data

instance (s : String) : Decidable (noColon s) := by
  unfold noColon; infer_instance

theorem colon_append_inj : ∀ (a : List Char) (c b d : List Char), ':' ∉ a → ':' ∉ c →
    a ++ ':' :: b = c ++ ':' :: d → a = c ∧ b = d := by
  intro a
  induction a with
  | nil =>
    intro c b d _ hc h
    cases c with
    | nil => simpa using h
    | cons y ys =>
      simp only [List.nil_append, List.cons_append, List.cons.injEq] at h
      exact absurd (h.1 ▸ List.mem_cons_self y ys) hc
  | cons x xs ih =>
    intro c b d ha hc h
    cases c with
    | nil =>
      simp only [List.nil_append, List.cons_append, List.cons.injEq] at h
      exact absurd (h.1 ▸ List.mem_cons_self x xs) ha
    | cons y ys =>
      simp only [List.cons_append, List.cons.injEq] at h
      obtain ⟨hxy, hrest⟩ := h
      have hxs : ':' ∉ xs := fun hm => ha (List.mem_cons_of_mem x hm)
      have hys : ':' ∉ ys := fun hm => hc (List.mem_cons_of_mem y hm)
      obtain ⟨h1, h2⟩ := ih ys b d hxs hys hrest
      exact ⟨by rw [hxy, h1], h2⟩

theorem string_data_inj {s t : String} (h : s.data = t.data) : s = t := by
  cases s; cases t; simp_all

theorem key2_inj {a b c d : String} (ha : noColon a) (hc : noColon c) :
    key2 a b = key2 c d ↔ a = c ∧ b = d := by
  constructor
  · intro h
    have hdata : a.data ++ ':' :: b.data = c.data ++ ':' :: d.data := by
      have := congrArg String.data h
      simpa [key2, String.data_append] using this
    obtain ⟨h1, h2⟩ := colon_append_inj a.data c.data b.data d.data ha hc hdata
    exact ⟨string_data_inj h1, string_data_inj h2⟩
  · rintro ⟨rfl, rfl⟩; rfl

theorem key3_inj {a b v c d u : String} (ha : noColon a) (hc : noColon c)
    (hb : noColon b) (hd : noColon d) :
    key3 a b v = key3 c d u ↔ a = c ∧ b = d ∧ v = u := by
  constructor
  · intro h
    have hdata : a.data ++ ':' :: (b.data ++ ':' :: v.data)
        = c.data ++ ':' :: (d.data ++ ':' :: u.data) := by
      have := congrArg String.data h
      simpa [key3, String.data_append] using this
    obtain ⟨h1, h2⟩ := colon_append_inj a.data c.data _ _ ha hc hdata
    obtain ⟨h3, h4⟩ := colon_append_inj b.data d.data _ _ hb hd h2
    exact ⟨string_data_inj h1, string_data_inj h3, string_data_inj h4⟩
  · rintro ⟨rfl, rfl, rfl⟩; rfl

/-- Every row the encoder emits has a colon-free `Type` (it is one of the
fixed strings `A .. TXT` or the placeholder `UNKNOWN`). -/
theorem encType_noColon (record : LibdnsRecord) (zone : String) :
    noColon (libdnsRecordToResourceRecord record zone).type := by
  cases record <;> simp only [libdnsRecordToResourceRecord] <;> decide

/-- `trimSuffix` returns a truncation of its input, so it preserves
colon-freeness; in particular `shortName` does. -/
theorem shortName_noColon {n : String} (zoneName : String) (h : noColon n) :
    noColon (shortName zoneName n) := by
  unfold shortName trimSuffix
  split
  · intro hm
    exact h (List.mem_of_mem_take hm)
  · exact h

/-- Pair-level match relation of the Set claim: an existing row matches when
it shares `Type` and `Name` — under either the absolute or the zone-relative
spelling of the encoded name — with some caller record, its `Value` ignored. -/
def rowMatchesSet (zoneName : String) (records : List LibdnsRecord)
    (rr : ResourceRecord) : Bool :=
  records.any (fun r =>
    let e := libdnsRecordToResourceRecord r zoneName
    rr.type == e.type && (rr.name == e.name || rr.name == shortName zoneName e.name))

/-- Triple-level match relation of the Delete claim: `Type`, `Name` (absolute
or zone-relative spelling) and `Value` must all coincide. -/
def rowMatchesDelete (zoneName : String) (records : List LibdnsRecord)
    (rr : ResourceRecord) : Bool :=
  records.any (fun r =>
    let e := libdnsRecordToResourceRecord r zoneName
    rr.type == e.type && rr.value == e.value &&
      (rr.name == e.name || rr.name == shortName zoneName e.name))

theorem contains_iff_mem (L : List String) (k : String) :
    L.contains k = true ↔ k ∈ L := by
  simp [List.contains_eq_any_beq, List.any_eq_true]

/-- On a row with a colon-free `Type`, membership of its `Type:Name` key in
the key set built by `setRecords` is exactly the pair-level match. -/
theorem replaceKeys_contains_eq (zoneName : String) (records : List LibdnsRecord)
    (rr : ResourceRecord) (hty : noColon rr.type) :
    ((replaceKeys zoneName
        (records.map (fun r => libdnsRecordToResourceRecord r zoneName))).contains
      (key2 rr.type rr.name))
      = rowMatchesSet zoneName records rr := by
  rw [Bool.eq_iff_iff]
  rw [contains_iff_mem]
  simp only [replaceKeys, rowMatchesSet, List.mem_flatMap, List.mem_map, List.mem_cons,
    List.mem_singleton, List.any_eq_true, Bool.and_eq_true, Bool.or_eq_true, beq_iff_eq,
    List.not_mem_nil, or_false]
  constructor
  · rintro ⟨e, ⟨r, hr, rfl⟩, hk⟩
    refine ⟨r, hr, ?_⟩
    rcases hk with hk | hk
    · obtain ⟨h1, h2⟩ := (key2_inj hty (encType_noColon r zoneName)).mp hk
      exact ⟨h1, Or.inl h2⟩
    · obtain ⟨h1, h2⟩ := (key2_inj hty (encType_noColon r zoneName)).mp hk
      exact ⟨h1, Or.inr h2⟩
  · rintro ⟨r, hr, h1, h2⟩
    refine ⟨libdnsRecordToResourceRecord r zoneName, ⟨r, hr, rfl⟩, ?_⟩
    rcases h2 with h2 | h2
    · exact Or.inl (by rw [h1, h2])
    · exact Or.inr (by rw [h1, h2])

/-- On a row with colon-free `Type` and `Name`, and caller records whose
encoded names are colon-free, membership of the row's `Type:Name:Value` key
in the key set built by `deleteRecords` is exactly the triple-level match. -/
theorem deleteKeys_contains_eq (zoneName : String) (records : List LibdnsRecord)
    (rr : ResourceRecord) (hty : noColon rr.type) (hnm : noColon rr.name)
    (hrec : ∀ r ∈ records, noColon (libdnsRecordToResourceRecord r zoneName).name) :
    ((deleteKeys zoneName records).contains (key3 rr.type rr.name rr.value))
      = rowMatchesDelete zoneName records rr := by
  rw [Bool.eq_iff_iff]
  rw [contains_iff_mem]
  simp only [deleteKeys, rowMatchesDelete, List.mem_append, List.mem_map,
    List.any_eq_true, Bool.and_eq_true, Bool.or_eq_true, beq_iff_eq]
  constructor
  · rintro (⟨r, hr, hk⟩ | ⟨r, hr, hk⟩)
    · obtain ⟨h1, h2, h3⟩ :=
        (key3_inj hty (encType_noColon r zoneName) hnm (hrec r hr)).mp hk.symm
      exact ⟨r, hr, ⟨h1, h3⟩, Or.inl h2⟩
    · obtain ⟨h1, h2, h3⟩ :=
        (key3_inj hty (encType_noColon r zoneName) hnm
          (shortName_noColon zoneName (hrec r hr))).mp hk.symm
      exact ⟨r, hr, ⟨h1, h3⟩, Or.inr h2⟩
  · rintro ⟨r, hr, ⟨h1, h3⟩, h2 | h2⟩
    · exact Or.inl ⟨r, hr, by rw [h1, h2, h3]⟩
    · exact Or.inr ⟨r, hr, by rw [h1, h2, h3]⟩

/-- When the credentials are set, `ensureInitialized` succeeds and leaves the
cache, the trace and the credentials untouched. -/
theorem ensureInit_ok (st : PState) (hu : st.username ≠ "") (hp : st.password ≠ "") :
    ∃ st1, ensureInit st = (.ok (), st1) ∧ st1.zones = st.zones ∧
      st1.events = st.events ∧ st1.username = st.username ∧ st1.password = st.password := by
  unfold ensureInit
  by_cases hi : st.inited
  · exact ⟨st, by simp [hi]⟩
  · refine ⟨{ st with
        endpoint := if st.endpoint = "" then defaultEndpoint else st.endpoint,
        context := if st.context = "" then defaultContext else st.context,
        inited := true }, ?_, rfl, rfl, rfl, rfl⟩
    simp [hi, hu, hp]

/-- With the current document cached, `setRecords` computes exactly the
key-filtered row list and hands it to `setZone`. -/
theorem setRecords_run (w : World) (st : PState) (zoneName : String)
    (records : List LibdnsRecord) (doc : Zone)
    (hcur : lookupZone st.zones zoneName = some doc) :
    setRecords w st zoneName records
      = setZone w st zoneName
          { doc with
            resourceRecords :=
              doc.resourceRecords.filter (fun rr =>
                !(replaceKeys zoneName
                    (records.map (fun r => libdnsRecordToResourceRecord r zoneName))).contains
                  (key2 rr.type rr.name))
                ++ records.map (fun r => libdnsRecordToResourceRecord r zoneName) } := by
  unfold setRecords getZone
  rw [hcur]

/-- With the current document cached, `deleteRecords` computes exactly the
key-filtered row list and hands it to `setZone`. -/
theorem deleteRecords_run (w : World) (st : PState) (zoneName : String)
    (records : List LibdnsRecord) (doc : Zone)
    (hcur : lookupZone st.zones zoneName = some doc) :
    deleteRecords w st zoneName records
      = setZone w st zoneName
          { doc with
            resourceRecords :=
              doc.resourceRecords.filter (fun rr =>
                !(deleteKeys zoneName records).contains (key3 rr.type rr.name rr.value)) } := by
  unfold deleteRecords getZone
  rw [hcur]

/-- With the current document cached, `addRecords` hands the concatenated row
list to `setZone`. -/
theorem addRecords_run (w : World) (st : PState) (zoneName : String)
    (records : List LibdnsRecord) (doc : Zone)
    (hcur : lookupZone st.zones zoneName = some doc) :
    addRecords w st zoneName records
      = setZone w st zoneName
          { doc with
            resourceRecords :=
              doc.resourceRecords
                ++ records.map (fun r => libdnsRecordToResourceRecord r zoneName) } := by
  unfold addRecords getZone
  rw [hcur]

/-- Whatever the write outcome, `setZone` records exactly one write event
carrying the cleaned document. -/
theorem setZone_events (w : World) (st : PState) (zoneName : String) (zoneData : Zone) :
    (setZone w st zoneName zoneData).2.events
      = st.events ++ [Event.writeEv zoneName (cleanZone zoneData)] := by
  unfold setZone
  cases h : w.writeResp zoneName (cleanZone zoneData) <;> simp [h]

/-- C1: for every current zone document (here: the cached document for the
zone) and non-empty caller record list, `SetRecords` writes back a document
whose rows are exactly the existing rows that match no caller record —
matching means sharing `Type` and `Name` (under the absolute or the
zone-relative spelling of the caller record's encoded name) while the row's
`Value` is ignored — kept in their original order, with the newly encoded
rows appended after them.  The colon-free hypothesis on the row types makes
the code's `Type:Name` string keys coincide with `(Type, Name)` pairs. -/
theorem setRecords_replaces_exactly_type_name_matches
    (w : World) (st : PState) (zoneName : String) (records : List LibdnsRecord) (doc : Zone)
    (hu : st.username ≠ "") (hp : st.password ≠ "") (hz : zoneName ≠ "")
    (hne : records ≠ [])
    (hcur : lookupZone st.zones zoneName = some doc)
    (hty : ∀ rr ∈ doc.resourceRecords, noColon rr.type) :
    ((SetRecords w st zoneName records).2.events
      = st.events ++ [Event.writeEv zoneName (cleanZone
          { doc with
            resourceRecords :=
              doc.resourceRecords.filter (fun rr => !rowMatchesSet zoneName records rr)
                ++ records.map (fun r => libdnsRecordToResourceRecord r zoneName) })]) ∧
    (∀ rr : ResourceRecord,
      rowMatchesSet zoneName records rr = true ↔
        ∃ r ∈ records,
          rr.type = (libdnsRecordToResourceRecord r zoneName).type ∧
          (rr.name = (libdnsRecordToResourceRecord r zoneName).name ∨
           rr.name = shortName zoneName (libdnsRecordToResourceRecord r zoneName).name)) := by
  constructor
  · obtain ⟨st1, hE, hzs, hev, _, _⟩ := ensureInit_ok st hu hp
    have hlen : ¬records.length = 0 := by
      simpa [List.length_eq_zero] using hne
    have hcur1 : lookupZone st1.zones zoneName = some doc := by rw [hzs]; exact hcur
    have hfil : doc.resourceRecords.filter (fun rr =>
          !(replaceKeys zoneName
              (records.map (fun r => libdnsRecordToResourceRecord r zoneName))).contains
            (key2 rr.type rr.name))
        = doc.resourceRecords.filter (fun rr => !rowMatchesSet zoneName records rr) := by
      refine List.filter_congr ?_
      intro rr hm
      rw [replaceKeys_contains_eq zoneName records rr (hty rr hm)]
    have hrun := setRecords_run w st1 zoneName records doc hcur1
    rw [hfil] at hrun
    unfold SetRecords
    rw [hE]
    simp only [if_neg hz, if_neg hlen, hrun]
    cases hS : setZone w st1 zoneName
        { doc with
          resourceRecords :=
            doc.resourceRecords.filter (fun rr => !rowMatchesSet zoneName records rr)
              ++ records.map (fun r => libdnsRecordToResourceRecord r zoneName) } with
    | mk res st2 =>
      have hevents := setZone_events w st1 zoneName
        { doc with
          resourceRecords :=
            doc.resourceRecords.filter (fun rr => !rowMatchesSet zoneName records rr)
              ++ records.map (fun r => libdnsRecordToResourceRecord r zoneName) }
      rw [hS] at hevents
      cases res <;> simpa [hev] using hevents
  · intro rr
    simp [rowMatchesSet, List.any_eq_true, Bool.and_eq_true, Bool.or_eq_true, beq_iff_eq]

/-- C2: for every current zone document (here: the cached document for the
zone) and non-empty caller record list, `DeleteRecords` writes back exactly
the existing rows whose `(Type, Name, Value)` triple matches no caller
record's encoded triple — the name compared under both its absolute and its
zone-relative spelling — in their original order; rows sharing `Type` and
`Name` but with a different `Value` are untouched, and when nothing matches
the row set is written back unchanged.  Colon-free hypotheses on the rows'
types and names make the code's `Type:Name:Value` keys coincide with
triples. -/
theorem deleteRecords_removes_exactly_full_matches
    (w : World) (st : PState) (zoneName : String) (records : List LibdnsRecord) (doc : Zone)
    (hu : st.username ≠ "") (hp : st.password ≠ "") (hz : zoneName ≠ "")
    (hne : records ≠ [])
    (hcur : lookupZone st.zones zoneName = some doc)
    (hty : ∀ rr ∈ doc.resourceRecords, noColon rr.type ∧ noColon rr.name)
    (hrec : ∀ r ∈ records, noColon (libdnsRecordToResourceRecord r zoneName).name) :
    ((DeleteRecords w st zoneName records).2.events
      = st.events ++ [Event.writeEv zoneName (cleanZone
          { doc with
            resourceRecords :=
              doc.resourceRecords.filter
                (fun rr => !rowMatchesDelete zoneName records rr) })]) ∧
    (∀ rr : ResourceRecord,
      rowMatchesDelete zoneName records rr = true ↔
        ∃ r ∈ records,
          rr.type = (libdnsRecordToResourceRecord r zoneName).type ∧
          rr.value = (libdnsRecordToResourceRecord r zoneName).value ∧
          (rr.name = (libdnsRecordToResourceRecord r zoneName).name ∨
           rr.name = shortName zoneName (libdnsRecordToResourceRecord r zoneName).name)) ∧
    ((∀ rr ∈ doc.resourceRecords, rowMatchesDelete zoneName records rr = false) →
      doc.resourceRecords.filter (fun rr => !rowMatchesDelete zoneName records rr)
        = doc.resourceRecords) := by
  refine ⟨?_, ?_, ?_⟩
  · obtain ⟨st1, hE, hzs, hev, _, _⟩ := ensureInit_ok st hu hp
    have hlen : ¬records.length = 0 := by
      simpa [List.length_eq_zero] using hne
    have hcur1 : lookupZone st1.zones zoneName = some doc := by rw [hzs]; exact hcur
    have hfil : doc.resourceRecords.filter (fun rr =>
          !(deleteKeys zoneName records).contains (key3 rr.type rr.name rr.value))
        = doc.resourceRecords.filter (fun rr => !rowMatchesDelete zoneName records rr) := by
      refine List.filter_congr ?_
      intro rr hm
      rw [deleteKeys_contains_eq zoneName records rr (hty rr hm).1 (hty rr hm).2 hrec]
    have hrun := deleteRecords_run w st1 zoneName records doc hcur1
    rw [hfil] at hrun
    unfold DeleteRecords
    rw [hE]
    simp only [if_neg hz, if_neg hlen, hrun]
    cases hS : setZone w st1 zoneName
        { doc with
          resourceRecords :=
            doc.resourceRecords.filter (fun rr => !rowMatchesDelete zoneName records rr) } with
    | mk res st2 =>
      have hevents := setZone_events w st1 zoneName
        { doc with
          resourceRecords :=
            doc.resourceRecords.filter (fun rr => !rowMatchesDelete zoneName records rr) }
      rw [hS] at hevents
      cases res <;> simpa [hev] using hevents
  · intro rr
    simp only [rowMatchesDelete, List.any_eq_true, Bool.and_eq_true, Bool.or_eq_true, beq_iff_eq]
    constructor
    · rintro ⟨r, hr, ⟨h1, h2⟩, h3⟩
      exact ⟨r, hr, h1, h2, h3⟩
    · rintro ⟨r, hr, h1, h2, h3⟩
      exact ⟨r, hr, ⟨h1, h2⟩, h3⟩
  · intro hnone
    refine List.filter_eq_self.mpr ?_
    intro rr hm
    rw [hnone rr hm]
    rfl

/-- C3: for every current zone document (here: the cached document for the
zone) and non-empty caller record list, `AppendRecords` writes back the
existing row sequence unchanged and in order, with the encoded caller rows
concatenated at the end in caller-supplied order; no de-duplication happens,
so each caller record contributes its own row (appending the same record
twice yields two rows, as the final conjunct shows on a duplicated head). -/
theorem appendRecords_appends_without_dedup
    (w : World) (st : PState) (zoneName : String) (records : List LibdnsRecord) (doc : Zone)
    (hu : st.username ≠ "") (hp : st.password ≠ "") (hz : zoneName ≠ "")
    (hne : records ≠ [])
    (hcur : lookupZone st.zones zoneName = some doc) :
    ((AppendRecords w st zoneName records).2.events
      = st.events ++ [Event.writeEv zoneName (cleanZone
          { doc with
            resourceRecords :=
              doc.resourceRecords
                ++ records.map (fun r => libdnsRecordToResourceRecord r zoneName) })]) ∧
    ((records.map (fun r => libdnsRecordToResourceRecord r zoneName)).length
      = records.length) ∧
    (∀ r : LibdnsRecord, (r :: r :: records).map (fun x => libdnsRecordToResourceRecord x zoneName)
      = libdnsRecordToResourceRecord r zoneName :: libdnsRecordToResourceRecord r zoneName
          :: records.map (fun x => libdnsRecordToResourceRecord x zoneName)) := by
  refine ⟨?_, by simp, fun r => rfl⟩
  obtain ⟨st1, hE, hzs, hev, _, _⟩ := ensureInit_ok st hu hp
  have hlen : ¬records.length = 0 := by
    simpa [List.length_eq_zero] using hne
  have hcur1 : lookupZone st1.zones zoneName = some doc := by rw [hzs]; exact hcur
  have hrun := addRecords_run w st1 zoneName records doc hcur1
  unfold AppendRecords
  rw [hE]
  simp only [if_neg hz, if_neg hlen, hrun]
  cases hS : setZone w st1 zoneName
      { doc with
        resourceRecords :=
          doc.resourceRecords
            ++ records.map (fun r => libdnsRecordToResourceRecord r zoneName) } with
  | mk res st2 =>
    have hevents := setZone_events w st1 zoneName
      { doc with
        resourceRecords :=
          doc.resourceRecords
            ++ records.map (fun r => libdnsRecordToResourceRecord r zoneName) }
    rw [hS] at hevents
    cases res <;> simpa [hev] using hevents

/-- C4 (code-bug evaluation): encoding a `libdns.Address` that holds the
IPv6 literal `::1` produces a row whose `Type` is `"A"`, not `"AAAA"` — the
encoder hard-codes `Type: "A"` for every `Address` and never inspects the
address family, contradicting the claim and the repository's own README
(which documents AAAA support and a "correctly distinguish between A and
AAAA" fix). -/
theorem addressEncode_ignores_family_bug :
    (libdnsRecordToResourceRecord
        (.address "www" 300000000000 { is4 := false, text := "::1" }) "example.com"
      = { name := "www.example.com", ttl := 300, type := "A", value := "::1" }) ∧
    (libdnsRecordToResourceRecord
        (.address "www" 300000000000 { is4 := false, text := "::1" }) "example.com").type
      ≠ "AAAA" := by
  decide

/-- C6 (code-bug evaluation): encoding variants outside the switch — here a
`ServiceBinding` (the input of the repository's own `TestServiceBindingSupport`,
which expects `Type = "HTTPS"`) and a generic `RR` (the DNS-01 input of
`TestRRRecordSupport`, which expects a TXT passthrough) — silently yields the
fixed placeholder row `{unknown, UNKNOWN, unknown}`; the encoder is total and
returns a plain row, so no error condition reaches the caller. -/
theorem unknownVariantEncode_placeholder_bug :
    (libdnsRecordToResourceRecord
        (.serviceBinding "test" 300000000000 "https" 1 "example.net" [("alpn", ["h2", "h3"])])
        "example.com"
      = { name := "unknown", ttl := 0, type := "UNKNOWN", value := "unknown" }) ∧
    (libdnsRecordToResourceRecord (.rr "_acme-challenge" 60000000000 "TXT" "token")
        "example.com"
      = { name := "unknown", ttl := 0, type := "UNKNOWN", value := "unknown" }) := by
  decide

/-- C5 (counterexample): decoding the SRV row named
`_sip._tcp.sub.example.com` in zone `example.com` yields `Name =
"sub.example.com"`, not the zone-relative `"sub"` the claim states: the SRV
branch takes the third `SplitN` segment of the raw row name verbatim and
never strips the zone suffix. -/
theorem srvDecode_zone_qualified_counterexample :
    (ResourceRecord.libdnsRecord
        { name := "_sip._tcp.sub.example.com", ttl := 60, type := "SRV",
          value := "5 8080 host", pref := 10 } "example.com"
      = .ok (.srv "sip" "tcp" "sub.example.com" 60000000000 10 5 8080 "host")) ∧
    ("sub.example.com" : String) ≠ "sub" := by
  decide

/-- C5 (amended): decoding an SRV row named `_sip._tcp.sub.example.com` with
zone `example.com` yields Service `sip`, Transport `tcp` and Name
`sub.example.com` — the remainder of the row name after the service and
transport labels, taken verbatim, so the zone suffix is not stripped; a row
named `_sip._tcp` with no subname yields Name `@`; and for every non-SRV row
that decodes successfully, the decoded record carries the zone-relative name
`relativeName` computes from the row name. -/
theorem srvDecode_amended :
    (ResourceRecord.libdnsRecord
        { name := "_sip._tcp.sub.example.com", ttl := 60, type := "SRV",
          value := "5 8080 host", pref := 10 } "example.com"
      = .ok (.srv "sip" "tcp" "sub.example.com" 60000000000 10 5 8080 "host")) ∧
    (ResourceRecord.libdnsRecord
        { name := "_sip._tcp", ttl := 60, type := "SRV",
          value := "5 8080 host", pref := 10 } "example.com"
      = .ok (.srv "sip" "tcp" "@" 60000000000 10 5 8080 "host")) ∧
    (∀ (r : ResourceRecord) (zone : String) (rec : LibdnsRecord),
      r.type ≠ "SRV" → r.libdnsRecord zone = .ok rec →
      rec.recName = relativeName r.name zone) := by
  refine ⟨by decide, by decide, ?_⟩
  intro r zone rec hnotsrv hok
  simp only [ResourceRecord.libdnsRecord] at hok
  split at hok
  all_goals try (rename_i heq; exact absurd heq hnotsrv)
  all_goals try (simp only [rrParse] at hok)
  all_goals repeat split at hok
  all_goals try (simp at hok)
  all_goals subst hok
  all_goals rfl

/-- Witness for the amended C5, exercising the universal non-SRV clause at a
concrete TXT row. -/
theorem srvDecode_amended_witness :
    (({ name := "x.example.com", ttl := 60, type := "TXT",
        value := "hello" } : ResourceRecord).type ≠ "SRV") ∧
    (ResourceRecord.libdnsRecord
        { name := "x.example.com", ttl := 60, type := "TXT", value := "hello" } "example.com"
      = .ok (.txt "x" 60000000000 "hello")) ∧
    ((LibdnsRecord.txt "x" 60000000000 "hello").recName
      = relativeName "x.example.com" "example.com") :=
  ⟨by decide, by decide,
    srvDecode_amended.2.2
      { name := "x.example.com", ttl := 60, type := "TXT", value := "hello" }
      "example.com" (.txt "x" 60000000000 "hello") (by decide) (by decide)⟩

/-- `ensureInitialized` never touches the cache or the transport trace. -/
theorem ensureInit_state (st : PState) :
    (ensureInit st).2.events = st.events ∧ (ensureInit st).2.zones = st.zones := by
  unfold ensureInit
  by_cases hi : st.inited
  · simp [hi]
  · by_cases hu : st.username = ""
    · simp [hi, hu]
    · by_cases hp : st.password = ""
      · simp [hi, hu, hp]
      · simp [hi, hu, hp]

/-- `getZone` records at most one fetch event and never a write event. -/
theorem getZone_events_sub (w : World) (st : PState) (z : String) :
    (getZone w st z).2.events = st.events ∨
      (getZone w st z).2.events = st.events ++ [Event.fetchEv z] := by
  unfold getZone
  cases h : lookupZone st.zones z with
  | some doc => simp [h]
  | none =>
    cases hf : w.fetchResp z with
    | error e => simp [h, hf]
    | ok zs => cases zs <;> simp [h, hf]

/-- `GetRecords` records at most one fetch event and never a write event. -/
theorem GetRecords_events_sub (w : World) (st : PState) (z : String) :
    (GetRecords w st z).2.events = st.events ∨
      (GetRecords w st z).2.events = st.events ++ [Event.fetchEv z] := by
  unfold GetRecords
  cases hE : ensureInit st with
  | mk r st1 =>
    have hev1 : st1.events = st.events := by
      have := (ensureInit_state st).1
      rw [hE] at this
      exact this
    cases r with
    | error e => simp [hev1]
    | ok u =>
      by_cases hz : z = ""
      · simp [hz, hev1]
      · simp only [if_neg hz]
        cases hG : getZone w st1 z with
        | mk rg st2 =>
          have hsub := getZone_events_sub w st1 z
          rw [hG] at hsub
          cases rg with
          | error e => simpa [hev1] using hsub
          | ok doc =>
            cases hD : decodeRows z doc.resourceRecords <;> simpa [hD, hev1] using hsub

/-- C7: with the current document cached, `GetRecords` returns exactly the
result of decoding every row — the whole call fails with the first row's
wrapped conversion error as soon as any row fails to decode, and no partial
list is produced — while leaving the cache untouched; the final conjunct
shows the operation performs no mutation in general: its trace gains at most
a fetch event, never a write. -/
theorem getRecords_decodes_all_or_fails
    (w : World) (st : PState) (zone : String) (doc : Zone)
    (hu : st.username ≠ "") (hp : st.password ≠ "") (hz : zone ≠ "")
    (hcur : lookupZone st.zones zone = some doc) :
    ((GetRecords w st zone).1 = decodeRows zone doc.resourceRecords ∧
     (GetRecords w st zone).2.zones = st.zones ∧
     (GetRecords w st zone).2.events = st.events) ∧
    (∀ rows : List ResourceRecord,
      (∀ rr ∈ rows, ∃ rec, rr.libdnsRecord zone = .ok rec) →
        ∃ recs, decodeRows zone rows = .ok recs ∧
          List.Forall₂ (fun (rr : ResourceRecord) rec => rr.libdnsRecord zone = .ok rec)
            rows recs) ∧
    (∀ (gd : List ResourceRecord) (bad : ResourceRecord) (rest : List ResourceRecord)
        (e : String),
      (∀ rr ∈ gd, ∃ rec, rr.libdnsRecord zone = .ok rec) →
      bad.libdnsRecord zone = .error e →
      decodeRows zone (gd ++ bad :: rest)
        = .error ("failed to convert resource record " ++ bad.name ++ ": " ++ e)) ∧
    (∀ (w2 : World) (st2 : PState) (z2 : String),
      (GetRecords w2 st2 z2).2.events = st2.events ∨
        (GetRecords w2 st2 z2).2.events = st2.events ++ [Event.fetchEv z2]) := by
  refine ⟨?_, ?_, ?_, fun w2 st2 z2 => GetRecords_events_sub w2 st2 z2⟩
  · obtain ⟨st1, hE, hzs, hev, _, _⟩ := ensureInit_ok st hu hp
    have hcur1 : lookupZone st1.zones zone = some doc := by rw [hzs]; exact hcur
    unfold GetRecords getZone
    rw [hE]
    simp only [if_neg hz]
    rw [hcur1]
    cases hD : decodeRows zone doc.resourceRecords <;> simp [hD, hzs, hev]
  · intro rows
    induction rows with
    | nil => exact fun _ => ⟨[], rfl, List.Forall₂.nil⟩
    | cons rr rest ih =>
      intro hall
      obtain ⟨rec, hrec⟩ := hall rr (List.mem_cons_self rr rest)
      obtain ⟨recs, hd, hf⟩ := ih (fun x hx => hall x (List.mem_cons_of_mem rr hx))
      refine ⟨rec :: recs, ?_, List.Forall₂.cons hrec hf⟩
      unfold decodeRows
      rw [hrec, hd]
  · intro gd bad rest e hall hbad
    induction gd with
    | nil =>
      unfold decodeRows
      rw [List.nil_append]
      simp only [decodeRows]
      rw [hbad]
    | cons g gs ih =>
      obtain ⟨rec, hrec⟩ := hall g (List.mem_cons_self g gs)
      have hrest := ih (fun x hx => hall x (List.mem_cons_of_mem g hx))
      rw [List.cons_append]
      unfold decodeRows
      rw [hrec, hrest]

/-- C8: when fetching the current zone document fails (cache miss and
transport error), each mutating operation fails with the fetch's error — kept
inside the operation-context wrapping — after recording only the fetch
attempt, never a write, and the cache is untouched; and the cache entry for a
zone is removed by `setZone` only after a confirmed successful write: on
write failure the cached zones are exactly as before, on success exactly the
zone's entry is deleted. -/
theorem mutations_fetch_fail_no_write_and_cache_kept_on_write_fail
    (w : World) (st : PState) (zone : String) (records : List LibdnsRecord) (e : String)
    (hu : st.username ≠ "") (hp : st.password ≠ "") (hz : zone ≠ "") (hne : records ≠ [])
    (hmiss : lookupZone st.zones zone = none)
    (hfetch : w.fetchResp zone = .error e) :
    ((AppendRecords w st zone records).1
        = .error ("failed to add records to zone " ++ zone ++ ": "
            ++ ("failed to get zone " ++ zone ++ ": "
              ++ ("failed to get zone " ++ zone ++ ": " ++ e))) ∧
      (AppendRecords w st zone records).2.events = st.events ++ [Event.fetchEv zone] ∧
      (AppendRecords w st zone records).2.zones = st.zones) ∧
    ((SetRecords w st zone records).1
        = .error ("failed to set records in zone " ++ zone ++ ": "
            ++ ("failed to get zone " ++ zone ++ ": "
              ++ ("failed to get zone " ++ zone ++ ": " ++ e))) ∧
      (SetRecords w st zone records).2.events = st.events ++ [Event.fetchEv zone] ∧
      (SetRecords w st zone records).2.zones = st.zones) ∧
    ((DeleteRecords w st zone records).1
        = .error ("failed to delete records from zone " ++ zone ++ ": "
            ++ ("failed to get zone " ++ zone ++ ": "
              ++ ("failed to get zone " ++ zone ++ ": " ++ e))) ∧
      (DeleteRecords w st zone records).2.events = st.events ++ [Event.fetchEv zone] ∧
      (DeleteRecords w st zone records).2.zones = st.zones) ∧
    (∀ (w2 : World) (st2 : PState) (z2 : String) (d2 : Zone) (e2 : String),
      w2.writeResp z2 (cleanZone d2) = .error e2 →
        (setZone w2 st2 z2 d2).1
            = .error ("failed to update zone " ++ z2 ++ ": " ++ e2) ∧
          (setZone w2 st2 z2 d2).2.zones = st2.zones) ∧
    (∀ (w2 : World) (st2 : PState) (z2 : String) (d2 : Zone),
      w2.writeResp z2 (cleanZone d2) = .ok () →
        (setZone w2 st2 z2 d2).2.zones = eraseZone st2.zones z2) := by
  obtain ⟨st1, hE, hzs, hev, _, _⟩ := ensureInit_ok st hu hp
  have hlen : ¬records.length = 0 := by
    simpa [List.length_eq_zero] using hne
  have hm1 : lookupZone st1.zones zone = none := by rw [hzs]; exact hmiss
  have hget : getZone w st1 zone
      = (.error ("failed to get zone " ++ zone ++ ": " ++ e),
          { st1 with events := st1.events ++ [Event.fetchEv zone] }) := by
    unfold getZone
    rw [hm1, hfetch]
  have haddF : addRecords w st1 zone records
      = (.error ("failed to get zone " ++ zone ++ ": "
            ++ ("failed to get zone " ++ zone ++ ": " ++ e)),
          { st1 with events := st1.events ++ [Event.fetchEv zone] }) := by
    unfold addRecords
    rw [hget]
  have hsetF : setRecords w st1 zone records
      = (.error ("failed to get zone " ++ zone ++ ": "
            ++ ("failed to get zone " ++ zone ++ ": " ++ e)),
          { st1 with events := st1.events ++ [Event.fetchEv zone] }) := by
    unfold setRecords
    rw [hget]
  have hdelF : deleteRecords w st1 zone records
      = (.error ("failed to get zone " ++ zone ++ ": "
            ++ ("failed to get zone " ++ zone ++ ": " ++ e)),
          { st1 with events := st1.events ++ [Event.fetchEv zone] }) := by
    unfold deleteRecords
    rw [hget]
  refine ⟨?_, ?_, ?_, ?_, ?_⟩
  · unfold AppendRecords
    rw [hE]
    simp only [if_neg hz, if_neg hlen, haddF]
    exact ⟨trivial, by simp [hev], by simp [hzs]⟩
  · unfold SetRecords
    rw [hE]
    simp only [if_neg hz, if_neg hlen, hsetF]
    exact ⟨trivial, by simp [hev], by simp [hzs]⟩
  · unfold DeleteRecords
    rw [hE]
    simp only [if_neg hz, if_neg hlen, hdelF]
    exact ⟨trivial, by simp [hev], by simp [hzs]⟩
  · intro w2 st2 z2 d2 e2 hw
    unfold setZone
    simp only [hw]
    exact ⟨trivial, trivial⟩
  · intro w2 st2 z2 d2 hw
    unfold setZone
    simp only [hw]

/-- C9: with valid credentials, each of the four public operations called
with an empty zone name fails fast with the validation error "zone name is
required" while the cache and the transport trace stay untouched — no
network or cache mutation happens; and each mutating operation called with an
empty records list (and any non-empty zone) fails fast with "at least one
record is required", likewise before any access. -/
theorem operations_validate_before_any_access
    (w : World) (st : PState) (records : List LibdnsRecord)
    (hu : st.username ≠ "") (hp : st.password ≠ "") :
    ((GetRecords w st "").1 = .error "zone name is required" ∧
      (GetRecords w st "").2.zones = st.zones ∧
      (GetRecords w st "").2.events = st.events) ∧
    ((AppendRecords w st "" records).1 = .error "zone name is required" ∧
      (AppendRecords w st "" records).2.zones = st.zones ∧
      (AppendRecords w st "" records).2.events = st.events) ∧
    ((SetRecords w st "" records).1 = .error "zone name is required" ∧
      (SetRecords w st "" records).2.zones = st.zones ∧
      (SetRecords w st "" records).2.events = st.events) ∧
    ((DeleteRecords w st "" records).1 = .error "zone name is required" ∧
      (DeleteRecords w st "" records).2.zones = st.zones ∧
      (DeleteRecords w st "" records).2.events = st.events) ∧
    (∀ zone : String, zone ≠ "" →
      ((AppendRecords w st zone []).1 = .error "at least one record is required" ∧
        (AppendRecords w st zone []).2.zones = st.zones ∧
        (AppendRecords w st zone []).2.events = st.events) ∧
      ((SetRecords w st zone []).1 = .error "at least one record is required" ∧
        (SetRecords w st zone []).2.zones = st.zones ∧
        (SetRecords w st zone []).2.events = st.events) ∧
      ((DeleteRecords w st zone []).1 = .error "at least one record is required" ∧
        (DeleteRecords w st zone []).2.zones = st.zones ∧
        (DeleteRecords w st zone []).2.events = st.events)) := by
  obtain ⟨st1, hE, hzs, hev, _, _⟩ := ensureInit_ok st hu hp
  refine ⟨?_, ?_, ?_, ?_, ?_⟩
  · unfold GetRecords
    rw [hE]
    simp [hzs, hev]
  · unfold AppendRecords
    rw [hE]
    simp [hzs, hev]
  · unfold SetRecords
    rw [hE]
    simp [hzs, hev]
  · unfold DeleteRecords
    rw [hE]
    simp [hzs, hev]
  · intro zone hzo
    refine ⟨?_, ?_, ?_⟩
    · unfold AppendRecords
      rw [hE]
      simp [if_neg hzo, hzs, hev]
    · unfold SetRecords
      rw [hE]
      simp [if_neg hzo, hzs, hev]
    · unfold DeleteRecords
      rw [hE]
      simp [if_neg hzo, hzs, hev]

/-- C10: whenever a mutating operation succeeds, the returned record list is
exactly the caller-supplied one — an echo of the input, not something
re-read from the resulting zone document. -/
theorem mutating_operations_echo_input
    (w : World) (st : PState) (zone : String) (records out : List LibdnsRecord) :
    ((AppendRecords w st zone records).1 = .ok out → out = records) ∧
    ((SetRecords w st zone records).1 = .ok out → out = records) ∧
    ((DeleteRecords w st zone records).1 = .ok out → out = records) := by
  refine ⟨?_, ?_, ?_⟩
  · intro h
    unfold AppendRecords at h
    split at h
    · simp at h
    · split at h
      · simp at h
      · split at h
        · simp at h
        · split at h
          · simp at h
          · simp at h
            exact h.symm
  · intro h
    unfold SetRecords at h
    split at h
    · simp at h
    · split at h
      · simp at h
      · split at h
        · simp at h
        · split at h
          · simp at h
          · simp at h
            exact h.symm
  · intro h
    unfold DeleteRecords at h
    split at h
    · simp at h
    · split at h
      · simp at h
      · split at h
        · simp at h
        · split at h
          · simp at h
          · simp at h
            exact h.symm

/-! ### Concrete scenario used by the witnesses -/

/-- A zone document for example.com with one TXT row (stored relative) and
one A row (stored absolute), echoing the spec §8 scenario. -/
def zoneDocA : Zone :=
  { resourceRecords :=
      [{ name := "test", ttl := 600, type := "TXT", value := "old" },
       { name := "keep.example.com", ttl := 600, type := "A", value := "1.2.3.4" }] }

/-- Provider state with credentials and the document cached. -/
def stA : PState :=
  { username := "user", password := "pass", zones := [("example.com", zoneDocA)] }

/-- Provider state with credentials and an empty cache. -/
def stB : PState := { username := "user", password := "pass" }

/-- Transport on which every call succeeds. -/
def wOk : World := { fetchResp := fun _ => .ok [zoneDocA], writeResp := fun _ _ => .ok () }

/-- Transport on which every call fails. -/
def wFail : World :=
  { fetchResp := fun _ => .error "connection refused",
    writeResp := fun _ _ => .error "denied" }

/-- One caller record: a new TXT value for the name test. -/
def recsA : List LibdnsRecord := [.txt "test" 300000000000 "new"]

/-- Witness for C1: the spec §8 scenario — setting a TXT record named test
replaces the old TXT row by type-and-name match. -/
theorem setRecords_witness :
    (SetRecords wOk stA "example.com" recsA).2.events
      = stA.events ++ [Event.writeEv "example.com" (cleanZone
          { zoneDocA with
            resourceRecords :=
              zoneDocA.resourceRecords.filter
                  (fun rr => !rowMatchesSet "example.com" recsA rr)
                ++ recsA.map (fun r => libdnsRecordToResourceRecord r "example.com") })] :=
  (setRecords_replaces_exactly_type_name_matches wOk stA "example.com" recsA zoneDocA
    (by decide) (by decide) (by decide) (by decide) (by decide) (by decide)).1

/-- Witness for C2 at the concrete scenario. -/
theorem deleteRecords_witness :
    (DeleteRecords wOk stA "example.com" recsA).2.events
      = stA.events ++ [Event.writeEv "example.com" (cleanZone
          { zoneDocA with
            resourceRecords :=
              zoneDocA.resourceRecords.filter
                (fun rr => !rowMatchesDelete "example.com" recsA rr) })] :=
  (deleteRecords_removes_exactly_full_matches wOk stA "example.com" recsA zoneDocA
    (by decide) (by decide) (by decide) (by decide) (by decide) (by decide) (by decide)).1

/-- Witness for C3 at the concrete scenario. -/
theorem appendRecords_witness :
    (AppendRecords wOk stA "example.com" recsA).2.events
      = stA.events ++ [Event.writeEv "example.com" (cleanZone
          { zoneDocA with
            resourceRecords :=
              zoneDocA.resourceRecords
                ++ recsA.map (fun r => libdnsRecordToResourceRecord r "example.com") })] :=
  (appendRecords_appends_without_dedup wOk stA "example.com" recsA zoneDocA
    (by decide) (by decide) (by decide) (by decide) (by decide)).1

/-- Witness for C7 at the concrete scenario. -/
theorem getRecords_witness :
    (GetRecords wOk stA "example.com").1
        = decodeRows "example.com" zoneDocA.resourceRecords ∧
      (GetRecords wOk stA "example.com").2.zones = stA.zones ∧
      (GetRecords wOk stA "example.com").2.events = stA.events :=
  (getRecords_decodes_all_or_fails wOk stA "example.com" zoneDocA
    (by decide) (by decide) (by decide) (by decide)).1

/-- Witness for C8: with an empty cache and a failing transport, Append
fails with the wrapped fetch error, records only the fetch attempt, and
leaves the cache unchanged. -/
theorem mutations_fetch_fail_witness :
    (AppendRecords wFail stB "example.com" recsA).1
        = .error ("failed to add records to zone " ++ "example.com" ++ ": "
            ++ ("failed to get zone " ++ "example.com" ++ ": "
              ++ ("failed to get zone " ++ "example.com" ++ ": " ++ "connection refused"))) ∧
      (AppendRecords wFail stB "example.com" recsA).2.events
        = stB.events ++ [Event.fetchEv "example.com"] ∧
      (AppendRecords wFail stB "example.com" recsA).2.zones = stB.zones :=
  (mutations_fetch_fail_no_write_and_cache_kept_on_write_fail wFail stB "example.com" recsA
    "connection refused" (by decide) (by decide) (by decide) (by decide) rfl rfl).1

/-- Witness for C9: an empty zone name is rejected before any access. -/
theorem validate_witness :
    (GetRecords wOk stA "").1 = .error "zone name is required" ∧
      (GetRecords wOk stA "").2.zones = stA.zones ∧
      (GetRecords wOk stA "").2.events = stA.events :=
  (operations_validate_before_any_access wOk stA recsA (by decide) (by decide)).1

/-- Witness for C10: a successful Append returns exactly the input records. -/
theorem echo_witness :
    (AppendRecords wOk stA "example.com" recsA).1 = .ok recsA ∧ recsA = recsA :=
  ⟨by decide, (mutating_operations_echo_input wOk stA "example.com" recsA recsA).1 (by decide)⟩

end Autodns
